import Mathlib

set_option autoImplicit false

/-!
Shallow embedding of the dhr_util repository (python package DHRutil):
  * DHRutil/RNAseq/align_and_count_features.py  -- RNAseq pipeline driver
  * DHRutil/plotting.py                         -- color palette helper
  * DHRutil/caching.py                          -- pickle-file cache naming

Modelling conventions:
  * External tools (hisat2, samtools, featureCounts) are modelled by an
    environment `Env` mapping an invoked command line to its exit code and
    captured standard-output text; every invocation is recorded in a trace.
    Files written by the external tools themselves (the aligner's -S output,
    the sorter's -o output) are not part of the modelled filesystem; files
    written by the python code (logs, the bam file opened for the stdout
    redirect, gzip output) are.
  * The filesystem is an association list from file names to file data;
    gzip compression is modelled by a constructor wrapping the data.
  * The python float parsed from the alignment-rate report is modelled as
    an exact rational number.
  * JSON configuration documents are modelled structurally (json.dump of an
    object produces a file holding that object; json.load of such a file
    returns it, and fails on any other file data).
-/

namespace DHRutil

/-- JSON values as handled by json.load / json.dump for the configuration file. -/
inductive JVal : Type
  | jstr (s : String)
  | jnum (n : Int)
  | jbool (b : Bool)
  | jarr (xs : List JVal)

abbrev JObj := List (String × JVal)

/-- File data: plain text, a JSON document, or gzip-compressed data. -/
inductive FData : Type
  | text (s : String)
  | jsonData (j : JObj)
  | gzData (d : FData)

/-- The filesystem: an association list from file names to file data.
The most recent write for a name shadows older entries. -/
abbrev Fs := List (String × FData)

/-- First-match association lookup (python dict access / file lookup). -/
def alookup {α : Type} : List (String × α) → String → Option α
  | [], _ => none
  | (k, v) :: rest, n => if k = n then some v else alookup rest n

/-- Writing a file: the new entry shadows any older entry of the same name. -/
def fsWrite (fs : Fs) (n : String) (d : FData) : Fs := (n, d) :: fs

/-- os.remove: drop every entry of the given name. -/
def fsRemove : Fs → String → Fs
  | [], _ => []
  | (k, d) :: rest, n => if k = n then fsRemove rest n else (k, d) :: fsRemove rest n

/-! ## DHRutil/plotting.py -/

/-- The color_sets dict from get_colors (DHRutil/plotting.py, lines 35-38). -/
def color_sets : List (String × List String) :=
  [("nonseq7", ["#780B51", "#23E391", "#4D119D", "#FFB359", "#FF85C3", "#196DC1", "#8FF63B"]),
   ("seq7", ["#0A2F51", "#0F596B", "#16837A", "#1D9A6C", "#3B544", "#92CB5D", "#DEDB85"])]

/-- Embedding of `[c for n, c in zip(range(n), cycle(cs))]`: take `n` elements
from the infinite cyclic repetition of `cs`.  The second list argument is the
not-yet-consumed part of the current cycle round. -/
def cycleTake {α : Type} (cs : List α) : Nat → List α → List α
  | 0, _ => []
  | n + 1, c :: rest => c :: cycleTake cs n rest
  | n + 1, [] =>
    match cs with
    | [] => []
    | c :: rest => c :: cycleTake cs n rest

/-- get_colors (DHRutil/plotting.py, lines 14-50).  The python warning on
n_colors > len(cs) has no effect on the returned value and is not modelled. -/
def get_colors (n_colors : Nat) (color_set : String) : Except String (List String) :=
  match alookup color_sets color_set with
  | none => .error ("get_color_scheme: color set " ++ color_set ++ " not defined in color_sets")
  | some cs => .ok (cycleTake cs n_colors cs)

/-! ## DHRutil/caching.py -/

/-- The characters kept besides alphanumerics by _get_pf_name's filter. -/
def pfKeptPunct : List Char := "._- ".data

/-- The filename filter in _get_pf_name (DHRutil/caching.py, line 44):
keep a character iff it is alphanumeric or one of "._- ".  Python's
str.isalnum is Unicode-aware; it is modelled here by Char.isAlphanum. -/
def pfAllowed (c : Char) : Bool := c.isAlphanum || pfKeptPunct.contains c

/-- _get_pf_name (DHRutil/caching.py, lines 31-45).  Positional arguments and
keyword arguments are modelled after python's str() has been applied. -/
def _get_pf_name (fname : String) (args : List String) (kwargs : List (String × String)) : String :=
  let n1 : String := args.foldl (fun nm a => nm ++ "_" ++ a) fname
  let n2 : String := kwargs.foldl (fun nm kv => nm ++ "_" ++ kv.1 ++ "-" ++ kv.2) n1
  let n3 : String := n2 ++ ".pickle"
  String.mk (n3.data.filter pfAllowed)

/-! ## DHRutil/RNAseq/align_and_count_features.py : data model -/

/-- Result of a subprocess.run invocation: exit code and captured stdout text. -/
structure ToolResult where
  returncode : Int
  stdout : String

/-- The environment of external tools: maps an invoked command line to its
result.  This is the "fake invoker" abstraction of the tool contract. -/
structure Env where
  run : List String → ToolResult

/-- The error taxonomy of the pipeline driver (python exceptions raised). -/
inductive PErr : Type
  | usage (msg : String)
  | configNotFound (path : String)
  | jsonError (path : String)
  | keyError (k : String)
  | typeError (k : String)
  | toolFailure (tool : String) (code : Int) (input : String)
  | qualityGate (rate : ℚ) (input : String)
  | noAlignRate (input : String)
  | fileNotFound (f : String)

/-- Outcome of a (partial) run: result-or-error, final filesystem, and the
ordered trace of external command lines invoked. -/
structure RunOut (α : Type) where
  res : Except PErr α
  fs : Fs
  tr : List (List String)

/-! ### os.path.splitext -/

/-- Index of the last occurrence of a character (python str.rfind). -/
def rfindChar (c : Char) : List Char → Option Nat
  | [] => none
  | a :: rest =>
    match rfindChar c rest with
    | some i => some (i + 1)
    | none => if a = c then some 0 else none

/-- os.path.splitext on the character list of a path: split at the last dot,
except that dots leading the final path component never start an extension. -/
def splitextCore (p : List Char) : List Char × List Char :=
  let fnameStart : Nat :=
    match rfindChar '/' p with
    | some i => i + 1
    | none => 0
  match rfindChar '.' p with
  | none => (p, [])
  | some d =>
    if fnameStart ≤ d ∧ ((p.drop fnameStart).take (d - fnameStart)).any (fun c => c ≠ '.') then
      (p.take d, p.drop d)
    else (p, [])

/-- os.path.splitext(s)[0]. -/
def stripExt (s : String) : String := String.mk (splitextCore s.data).1

/-! ### The alignment-rate report pattern -/

/-- Match a literal character sequence at the front of the input, returning
the remainder on success. -/
def expectLit : List Char → List Char → Option (List Char)
  | [], s => some s
  | _ :: _, [] => none
  | l :: ls, c :: cs => if c = l then expectLit ls cs else none

/-- Match the regular expression ([0-9]+[.][0-9]+)% overall alignment rate
anchored at the start of the input, returning the two captured digit runs.
Because each digit run is maximal and followed by a non-digit literal, the
greedy match needs no backtracking. -/
def ratePatternAt (s : List Char) : Option (List Char × List Char) :=
  let d1 := s.takeWhile Char.isDigit
  if d1.isEmpty then none
  else
    match s.dropWhile Char.isDigit with
    | '.' :: rest1 =>
      let d2 := rest1.takeWhile Char.isDigit
      if d2.isEmpty then none
      else
        match expectLit "% overall alignment rate".data (rest1.dropWhile Char.isDigit) with
        | some _ => some (d1, d2)
        | none => none
    | _ => none

/-- re.search: try the pattern at each position, leftmost match wins. -/
def searchRate : List Char → Option (List Char × List Char)
  | [] => none
  | c :: rest =>
    match ratePatternAt (c :: rest) with
    | some p => some p
    | none => searchRate rest

/-- Numeric value of a run of decimal digit characters. -/
def digitsToNat (l : List Char) : Nat :=
  l.foldl (fun acc c => 10 * acc + (c.toNat - '0'.toNat)) 0

/-- float(align_rate_pat.search(stdout).group(1)), or none when re.search
finds no match (in python that case raises AttributeError on .group).
The float value d1.d2 is modelled as the exact rational
(d1 * 10^k + d2) / 10^k where k is the number of fractional digits. -/
def parseAlignRate (s : String) : Option ℚ :=
  (searchRate s.data).map
    (fun p => mkRat (digitsToNat p.1 * 10 ^ p.2.length + digitsToNat p.2) (10 ^ p.2.length))

/-! ### python str()/truthiness on JSON values -/

/-- The ASCII apostrophe used by python repr of strings. -/
def aposCh : Char := Char.ofNat 39

mutual

/-- python repr() of a JSON-derived value. -/
def pyRepr : JVal → String
  | .jstr s => String.singleton aposCh ++ s ++ String.singleton aposCh
  | .jnum n => toString n
  | .jbool b => if b then "True" else "False"
  | .jarr xs => "[" ++ pyReprList xs ++ "]"

/-- Comma-separated reprs of list elements. -/
def pyReprList : List JVal → String
  | [] => ""
  | [x] => pyRepr x
  | x :: y :: rest => pyRepr x ++ ", " ++ pyReprList (y :: rest)

end

/-- python str() of a JSON-derived value. -/
def pyStr : JVal → String
  | .jstr s => s
  | v => pyRepr v

/-- python truthiness of a JSON-derived value. -/
def pyTruthy : JVal → Bool
  | .jbool b => b
  | .jnum n => n != 0
  | .jstr s => s != ""
  | .jarr xs => !xs.isEmpty

/-! ### Configuration access -/

/-- config[k]: a missing key raises KeyError at point of use. -/
def jGetE (cfg : JObj) (k : String) : Except PErr JVal :=
  match alookup cfg k with
  | none => .error (.keyError k)
  | some v => .ok v

/-- config[k] used where a string is required (command-line argument). -/
def jGetStr (cfg : JObj) (k : String) : Except PErr String :=
  match jGetE cfg k with
  | .error e => .error e
  | .ok (.jstr s) => .ok s
  | .ok _ => .error (.typeError k)

/-- Interpret a JSON array as a list of strings. -/
def strListOf : List JVal → Except PErr (List String)
  | [] => .ok []
  | .jstr s :: rest => (strListOf rest).map (fun l => s :: l)
  | _ :: _ => .error (.typeError "list element")

/-- config[k] iterated as a list of strings. -/
def getStrList (cfg : JObj) (k : String) : Except PErr (List String) :=
  match jGetE cfg k with
  | .error e => .error e
  | .ok (.jarr xs) => strListOf xs
  | .ok _ => .error (.typeError k)

/-! ### Configuration loader and template -/

/-- The template configuration written by _make_sample_config_file
(align_and_count_features.py, lines 45-64). -/
def sampleConfig : JObj :=
  [("input_raw_sequence_reads",
    .jarr [.jstr "ctl_A_1.fq", .jstr "ctl_A_2.fq", .jstr "ctl_B_1.fq", .jstr "ctl_B_2.fq",
           .jstr "trt_C_1.fq", .jstr "trt_C_2.fq", .jstr "trt_D_1.fq", .jstr "trt_D_2.fq"]),
   ("max_cpu_threads", .jnum 16),
   ("hisat2_index_filename_prefix", .jstr "index/genome"),
   ("featureCounts_gtf_annotation_file", .jstr "annotation.gtf"),
   ("gzip_fq_after_alignment", .jbool true),
   ("rm_sam_after_converting", .jbool true),
   ("rm_bam_after_sorting", .jbool true)]

/-- _make_sample_config_file: json.dump the template to 'config.json'. -/
def _make_sample_config_file (fs : Fs) : Fs :=
  fsWrite fs "config.json" (.jsonData sampleConfig)

/-- _load_config (align_and_count_features.py, lines 67-90): ValueError when
the file does not exist, otherwise json.load it (modelled as succeeding
exactly on files holding a JSON document). -/
def _load_config (config_file : String) (fs : Fs) : Except PErr JObj :=
  match alookup fs config_file with
  | none => .error (.configNotFound config_file)
  | some (.jsonData j) => .ok j
  | some _ => .error (.jsonError config_file)

/-- _gzip_fq (align_and_count_features.py, lines 93-106): stream-copy the
file into a gzip member named fq + '.gz', then os.remove the original.
Opening a missing file raises FileNotFoundError. -/
def _gzip_fq (fs : Fs) (fq : String) : Except PErr Fs :=
  match alookup fs fq with
  | none => .error (.fileNotFound fq)
  | some d => .ok (fsRemove (fsWrite fs (fq ++ ".gz") (.gzData d)) fq)

/-- os.remove: FileNotFoundError when the file is absent. -/
def osRemove (fs : Fs) (n : String) : Except PErr Fs :=
  if (alookup fs n).isSome then .ok (fsRemove fs n) else .error (.fileNotFound n)

/-! ### Command lines -/

/-- The hisat2 command line (align_and_count_features.py, lines 135-136);
note the same input file is passed for both -1 and -2. -/
def hisatCmd (threads idx fq sam : String) : List String :=
  ["./hisat2", "-q", "-p", threads, "--pen-noncansplice", "1000000",
   "-x", idx, "-1", fq, "-2", fq, "-S", sam]

/-- The samtools view command line (line 186). -/
def viewCmd (threads sam : String) : List String :=
  ["./samtools", "view", "-b", "--threads", threads, sam]

/-- The samtools sort command line (line 227). -/
def sortCmd (threads bam out : String) : List String :=
  ["./samtools", "sort", "-b", "--threads", threads, bam, "-o", out]

/-- The featureCounts command line (lines 259-260). -/
def fcCmd (ann threads : String) (sort_bams : List String) : List String :=
  ["./featureCounts", "-p", "-t", "exon", "-a", ann, "-g", "gene_name",
   "-T", threads, "-o", "features.txt"] ++ sort_bams

/-! ### Alignment Stage -/

/-- One iteration of the _hisat_2_align_seq_reads loop (lines 130-155):
invoke hisat2, check the exit code, parse the alignment rate from stdout,
enforce the 70 percent quality gate, write the log file, and optionally
gzip-and-remove the input read file. -/
def alignStep (env : Env) (cfg : JObj) (fs : Fs) (input_fq : String) : RunOut String :=
  match jGetE cfg "max_cpu_threads" with
  | .error e => ⟨.error e, fs, []⟩
  | .ok tv =>
    match jGetStr cfg "hisat2_index_filename_prefix" with
    | .error e => ⟨.error e, fs, []⟩
    | .ok idx =>
      let base_name := stripExt input_fq
      let output_sam := base_name ++ ".sam"
      let log_file := base_name ++ ".align.log"
      let cmd := hisatCmd (pyStr tv) idx input_fq output_sam
      let res := env.run cmd
      if res.returncode ≠ 0 then
        ⟨.error (.toolFailure "hisat2" res.returncode input_fq), fs, [cmd]⟩
      else
        match parseAlignRate res.stdout with
        | none => ⟨.error (.noAlignRate input_fq), fs, [cmd]⟩
        | some align_rate =>
          if align_rate < 70 then
            ⟨.error (.qualityGate align_rate input_fq), fs, [cmd]⟩
          else
            let fs1 := fsWrite fs log_file
              (.text (String.intercalate " " cmd ++ "\n" ++ res.stdout))
            match jGetE cfg "gzip_fq_after_alignment" with
            | .error e => ⟨.error e, fs1, [cmd]⟩
            | .ok gv =>
              if pyTruthy gv then
                match _gzip_fq fs1 input_fq with
                | .error e => ⟨.error e, fs1, [cmd]⟩
                | .ok fs2 => ⟨.ok output_sam, fs2, [cmd]⟩
              else ⟨.ok output_sam, fs1, [cmd]⟩

/-- The for-loop of _hisat_2_align_seq_reads: process inputs in order,
aborting on the first error. -/
def alignLoop (env : Env) (cfg : JObj) : Fs → List String → RunOut (List String)
  | fs, [] => ⟨.ok [], fs, []⟩
  | fs, fq :: rest =>
    let s := alignStep env cfg fs fq
    match s.res with
    | .error e => ⟨.error e, s.fs, s.tr⟩
    | .ok sam =>
      let r := alignLoop env cfg s.fs rest
      ⟨r.res.map (fun sams => sam :: sams), r.fs, s.tr ++ r.tr⟩

/-- _hisat_2_align_seq_reads (lines 109-157). -/
def _hisat_2_align_seq_reads (env : Env) (cfg : JObj) (fs : Fs) : RunOut (List String) :=
  match getStrList cfg "input_raw_sequence_reads" with
  | .error e => ⟨.error e, fs, []⟩
  | .ok inputs => alignLoop env cfg fs inputs

/-- The full hisat2 command line built by alignStep for one input, given the
raw config values (shorthand used in theorem statements). -/
def alignCmd (tv : JVal) (idx fq : String) : List String :=
  hisatCmd (pyStr tv) idx fq (stripExt fq ++ ".sam")

/-- A mock invoker that always exits 0 and prints the given text. -/
def envConst (out : String) : Env := ⟨fun _ => ⟨0, out⟩⟩

/-- A mock invoker that fails (exit code 1) on the command for bad.fq and
otherwise exits 0 with output lacking the rate pattern. -/
def envMixed : Env :=
  ⟨fun cmd =>
    if cmd = alignCmd (.jnum 16) "index/genome" "bad.fq" then ⟨1, "boom"⟩
    else ⟨0, "no rate here"⟩⟩

/-- The template configuration with gzip_fq_after_alignment overridden to
false (the overriding entry shadows the template's). -/
def sampleConfigNoGz : JObj :=
  ("gzip_fq_after_alignment", .jbool false) :: sampleConfig

/-- The template configuration with the input list overridden to the same
read file twice (gzip_fq_after_alignment stays true). -/
def sampleConfigDup : JObj :=
  ("input_raw_sequence_reads", .jarr [.jstr "a.fq", .jstr "a.fq"]) :: sampleConfig

/-! ### Format-Conversion Stage -/

/-- One iteration of the _samtools_view loop (lines 181-197): open the .bam
output (created by python, filled by the stdout redirect), invoke samtools
view, check the exit code, and optionally remove the source .sam file. -/
def viewStep (env : Env) (cfg : JObj) (fs : Fs) (input_sam : String) : RunOut String :=
  let output_bam := stripExt input_sam ++ ".bam"
  let fs0 := fsWrite fs output_bam (.text "")
  match jGetE cfg "max_cpu_threads" with
  | .error e => ⟨.error e, fs0, []⟩
  | .ok tv =>
    let cmd := viewCmd (pyStr tv) input_sam
    let res := env.run cmd
    let fs1 := fsWrite fs0 output_bam (.text res.stdout)
    if res.returncode ≠ 0 then
      ⟨.error (.toolFailure "samtools view" res.returncode input_sam), fs1, [cmd]⟩
    else
      match jGetE cfg "rm_sam_after_converting" with
      | .error e => ⟨.error e, fs1, [cmd]⟩
      | .ok rv =>
        if pyTruthy rv then
          match osRemove fs1 input_sam with
          | .error e => ⟨.error e, fs1, [cmd]⟩
          | .ok fs2 => ⟨.ok output_bam, fs2, [cmd]⟩
        else ⟨.ok output_bam, fs1, [cmd]⟩

/-- _samtools_view (lines 160-199). -/
def _samtools_view (env : Env) (cfg : JObj) : Fs → List String → RunOut (List String)
  | fs, [] => ⟨.ok [], fs, []⟩
  | fs, sam :: rest =>
    let s := viewStep env cfg fs sam
    match s.res with
    | .error e => ⟨.error e, s.fs, s.tr⟩
    | .ok bam =>
      let r := _samtools_view env cfg s.fs rest
      ⟨r.res.map (fun bams => bam :: bams), r.fs, s.tr ++ r.tr⟩

/-! ### Sort Stage -/

/-- One iteration of the _samtools_sort loop (lines 223-238): invoke samtools
sort (console output discarded; the sorted file is written by the tool),
check the exit code, optionally remove the unsorted .bam. -/
def sortStep (env : Env) (cfg : JObj) (fs : Fs) (input_bam : String) : RunOut String :=
  let output_bam := stripExt input_bam ++ ".sort.bam"
  match jGetE cfg "max_cpu_threads" with
  | .error e => ⟨.error e, fs, []⟩
  | .ok tv =>
    let cmd := sortCmd (pyStr tv) input_bam output_bam
    let res := env.run cmd
    if res.returncode ≠ 0 then
      ⟨.error (.toolFailure "samtools sort" res.returncode input_bam), fs, [cmd]⟩
    else
      match jGetE cfg "rm_bam_after_sorting" with
      | .error e => ⟨.error e, fs, [cmd]⟩
      | .ok rv =>
        if pyTruthy rv then
          match osRemove fs input_bam with
          | .error e => ⟨.error e, fs, [cmd]⟩
          | .ok fs2 => ⟨.ok output_bam, fs2, [cmd]⟩
        else ⟨.ok output_bam, fs, [cmd]⟩

/-- _samtools_sort (lines 202-240). -/
def _samtools_sort (env : Env) (cfg : JObj) : Fs → List String → RunOut (List String)
  | fs, [] => ⟨.ok [], fs, []⟩
  | fs, bam :: rest =>
    let s := sortStep env cfg fs bam
    match s.res with
    | .error e => ⟨.error e, s.fs, s.tr⟩
    | .ok sbam =>
      let r := _samtools_sort env cfg s.fs rest
      ⟨r.res.map (fun sbams => sbam :: sbams), r.fs, s.tr ++ r.tr⟩

/-! ### Feature-Counting Stage -/

/-- _featurecounts_all_samples (lines 243-267): open features.log, write the
command line, run featureCounts with stdout redirected into the log, and
check the exit code.  features.txt is written by the tool itself. -/
def _featurecounts_all_samples (env : Env) (cfg : JObj) (fs : Fs)
    (sort_bams : List String) : RunOut Unit :=
  let fs0 := fsWrite fs "features.log" (.text "")
  match jGetStr cfg "featureCounts_gtf_annotation_file" with
  | .error e => ⟨.error e, fs0, []⟩
  | .ok ann =>
    match jGetE cfg "max_cpu_threads" with
    | .error e => ⟨.error e, fs0, []⟩
    | .ok tv =>
      let cmd := fcCmd ann (pyStr tv) sort_bams
      let cmd_str := String.intercalate " " cmd ++ "\n"
      let fs1 := fsWrite fs0 "features.log" (.text cmd_str)
      let res := env.run cmd
      let fs2 := fsWrite fs1 "features.log" (.text (cmd_str ++ res.stdout))
      if res.returncode ≠ 0 then
        ⟨.error (.toolFailure "featureCounts" res.returncode "all samples"), fs2, [cmd]⟩
      else ⟨.ok (), fs2, [cmd]⟩

/-! ### Driver -/

/-- Stages 1-4 of _main (lines 306-318), executed strictly in order with
abort on the first error. -/
def pipelineRun (env : Env) (cfg : JObj) (fs : Fs) : RunOut Unit :=
  let a := _hisat_2_align_seq_reads env cfg fs
  match a.res with
  | .error e => ⟨.error e, a.fs, a.tr⟩
  | .ok sams =>
    let v := _samtools_view env cfg a.fs sams
    match v.res with
    | .error e => ⟨.error e, v.fs, a.tr ++ v.tr⟩
    | .ok bams =>
      let so := _samtools_sort env cfg v.fs bams
      match so.res with
      | .error e => ⟨.error e, so.fs, a.tr ++ v.tr ++ so.tr⟩
      | .ok sort_bams =>
        let fc := _featurecounts_all_samples env cfg so.fs sort_bams
        ⟨fc.res, fc.fs, a.tr ++ v.tr ++ so.tr ++ fc.tr⟩

/-- _main (lines 270-318).  argv models sys.argv[1:]; the help text printed
before usage errors has no modelled effect. -/
def _main (argv : List String) (fs : Fs) (env : Env) : RunOut Unit :=
  match argv with
  | [] => ⟨.error (.usage "no options provided"), fs, []⟩
  | opt :: rest =>
    if opt = "--help" then ⟨.ok (), fs, []⟩
    else if opt = "--make-config" then ⟨.ok (), _make_sample_config_file fs, []⟩
    else if opt = "--config" then
      match rest with
      | [] => ⟨.error (.usage "no configuration file provided"), fs, []⟩
      | path :: _ =>
        match _load_config path fs with
        | .error e => ⟨.error e, fs, []⟩
        | .ok cfg => pipelineRun env cfg fs
    else ⟨.error (.usage ("unrecognized option: " ++ opt)), fs, []⟩

/-! ## Helper lemmas -/

theorem alookup_write_self (fs : Fs) (n : String) (d : FData) :
    alookup (fsWrite fs n d) n = some d := by
  simp [fsWrite, alookup]

theorem alookup_write_ne (fs : Fs) (n m : String) (d : FData) (h : n ≠ m) :
    alookup (fsWrite fs n d) m = alookup fs m := by
  simp [fsWrite, alookup, h]

theorem alookup_remove (fs : Fs) (n m : String) :
    alookup (fsRemove fs n) m = if n = m then none else alookup fs m := by
  induction fs with
  | nil =>
    by_cases h : n = m <;> simp [fsRemove, alookup, h]
  | cons e rest ih =>
    obtain ⟨k, d⟩ := e
    by_cases hk : k = n
    · subst hk
      by_cases hm : k = m
      · subst hm; simp [fsRemove, alookup, ih]
      · simp [fsRemove, alookup, hm, ih]
    · by_cases hm : k = m
      · subst hm
        have hnm : ¬ n = k := fun h => hk h.symm
        simp [fsRemove, alookup, hk, hnm]
      · simp [fsRemove, alookup, hk, hm, ih]

theorem alookup_remove_self (fs : Fs) (n : String) :
    alookup (fsRemove fs n) n = none := by
  simp [alookup_remove]

theorem alookup_remove_ne (fs : Fs) (n m : String) (h : n ≠ m) :
    alookup (fsRemove fs n) m = alookup fs m := by
  simp [alookup_remove, h]

theorem data_append (a b : String) : (a ++ b).data = a.data ++ b.data := by
  cases a; cases b; rfl

theorem string_eq_of_data {a b : String} (h : a.data = b.data) : a = b := by
  cases a; cases b; cases h; rfl

theorem rfindChar_none {c : Char} : ∀ {l : List Char}, rfindChar c l = none → c ∉ l := by
  intro l
  induction l with
  | nil => intro _ h; cases h
  | cons a rest ih =>
    intro h hm
    unfold rfindChar at h
    cases hr : rfindChar c rest with
    | some i => rw [hr] at h; cases h
    | none =>
      rw [hr] at h
      by_cases hac : a = c
      · simp [hac] at h
      · rcases List.mem_cons.mp hm with h1 | h2
        · exact hac h1.symm
        · exact ih hr h2

theorem rfindChar_some {c : Char} :
    ∀ {l : List Char} {i : Nat}, rfindChar c l = some i →
      ∃ pre suf, l = pre ++ c :: suf ∧ pre.length = i ∧ c ∉ suf := by
  intro l
  induction l with
  | nil => intro i h; cases h
  | cons a rest ih =>
    intro i h
    unfold rfindChar at h
    cases hr : rfindChar c rest with
    | some k =>
      rw [hr] at h
      obtain ⟨pre, suf, hl, hlen, hns⟩ := ih hr
      refine ⟨a :: pre, suf, by rw [hl]; rfl, ?_, hns⟩
      simp at h
      simp [hlen, ← h]
    | none =>
      rw [hr] at h
      by_cases hac : a = c
      · simp [hac] at h
        exact ⟨[], rest, by simp [hac], by simp [← h], rfindChar_none hr⟩
      · simp [hac] at h

theorem splitext_append (p : List Char) :
    (splitextCore p).1 ++ (splitextCore p).2 = p := by
  unfold splitextCore
  cases hd : rfindChar '.' p with
  | none => simp
  | some d =>
    simp only
    split
    · exact List.take_append_drop d p
    · simp

theorem splitext_ext (p : List Char) :
    (splitextCore p).2 = [] ∨
      ∃ suf, (splitextCore p).2 = '.' :: suf ∧ '.' ∉ suf := by
  unfold splitextCore
  cases hd : rfindChar '.' p with
  | none => left; simp
  | some d =>
    simp only
    split
    · right
      obtain ⟨pre, suf, hl, hlen, hns⟩ := rfindChar_some hd
      refine ⟨suf, ?_, hns⟩
      simp only
      rw [hl, ← hlen, List.drop_left]
    · left; simp

/-- The extension returned by splitext contains at most the one leading dot,
so appending ".align.log" to the stem never reproduces the original name. -/
theorem stripExt_append_ne (fq : String) (t : String)
    (hne : t.data ≠ []) (htl : '.' ∈ t.data.tail) : stripExt fq ++ t ≠ fq := by
  intro h
  have hdata := congrArg String.data h
  rw [data_append] at hdata
  have hfq : fq.data = (splitextCore fq.data).1 ++ (splitextCore fq.data).2 :=
    (splitext_append fq.data).symm
  have hcan : t.data = (splitextCore fq.data).2 := by
    have h1 : (splitextCore fq.data).1 ++ t.data = fq.data := hdata
    exact List.append_cancel_left (h1.trans hfq)
  rcases splitext_ext fq.data with hnil | ⟨suf, hsuf, hns⟩
  · rw [hnil] at hcan; exact hne hcan
  · rw [hsuf] at hcan
    have hhead : t.data.tail = suf := by rw [hcan]; rfl
    rw [hhead] at htl
    exact hns htl

theorem log_ne_fq (fq : String) : stripExt fq ++ ".align.log" ≠ fq := by
  apply stripExt_append_ne <;> decide

/-- Last character of a name built by appending a nonempty literal. -/
theorem getLast_append_lit (s t : String) (hne : t.data ≠ []) :
    (s ++ t).data.getLast? = t.data.getLast? := by
  rw [data_append]
  exact List.getLast?_append_of_ne_nil _ hne

theorem append_lit_ne_of_getLast (s₁ t₁ s₂ t₂ : String)
    (h₁ : t₁.data ≠ []) (h₂ : t₂.data ≠ [])
    (hl : t₁.data.getLast? ≠ t₂.data.getLast?) : s₁ ++ t₁ ≠ s₂ ++ t₂ := by
  intro h
  apply hl
  rw [← getLast_append_lit s₁ t₁ h₁, ← getLast_append_lit s₂ t₂ h₂, h]

theorem gz_ne_log (a b : String) : a ++ ".gz" ≠ b ++ ".align.log" := by
  apply append_lit_ne_of_getLast <;> decide

theorem sam_ne_log (a b : String) : a ++ ".sam" ≠ b ++ ".align.log" := by
  apply append_lit_ne_of_getLast <;> decide

theorem gz_ne_self (fq : String) : fq ++ ".gz" ≠ fq := by
  intro h
  have := congrArg (fun s => s.data.length) h
  simp [data_append] at this

/-! ## Claims about DHRutil/plotting.py and DHRutil/caching.py -/

theorem drop_cons_getD {α : Type} (d : α) (cs : List α) :
    ∀ j, j < cs.length → cs.drop j = cs.getD j d :: cs.drop (j + 1) := by
  induction cs with
  | nil => intro j h; simp at h
  | cons c rest ih =>
    intro j h
    cases j with
    | zero => simp [List.getD]
    | succ k =>
      have hk : k < rest.length := by simpa using h
      simpa [List.getD] using ih k hk

theorem cycleTake_drop {α : Type} (d : α) (cs : List α) (hne : cs ≠ []) :
    ∀ (n j : Nat), j ≤ cs.length →
      cycleTake cs n (cs.drop j) =
        (List.range n).map (fun i => cs.getD ((j + i) % cs.length) d) := by
  intro n
  induction n with
  | zero => intro j hj; simp [cycleTake]
  | succ m ih =>
    intro j hj
    rcases Nat.lt_or_ge j cs.length with hlt | hge
    · rw [drop_cons_getD d cs j hlt]
      show cs.getD j d :: cycleTake cs m (cs.drop (j + 1)) = _
      rw [ih (j + 1) hlt, List.range_succ_eq_map, List.map_cons, List.map_map]
      congr 1
      · simp [Nat.mod_eq_of_lt hlt]
      · apply List.map_congr_left
        intro i _
        have harith : j + 1 + i = j + (i + 1) := by omega
        simp [Function.comp, harith]
    · have hj' : j = cs.length := le_antisymm hj hge
      subst hj'
      rw [List.drop_length]
      cases cs with
      | nil => exact absurd rfl hne
      | cons c rest =>
        show c :: cycleTake (c :: rest) m rest = _
        have h1 := ih 1 (by simp)
        rw [show List.drop 1 (c :: rest) = rest from rfl] at h1
        rw [h1, List.range_succ_eq_map, List.map_cons, List.map_map]
        congr 1
        · simp [Nat.mod_self, List.getD]
        · apply List.map_congr_left
          intro i _
          simp [Function.comp, Nat.add_mod_left]
          rw [Nat.add_comm 1 i]

/-- C9: for n_colors colors from a valid color set name ('seq7' or
'nonseq7'), get_colors returns exactly n_colors strings, the i-th being the
palette entry at index i mod 7; any other name yields an error. -/
theorem C9_get_colors (n_colors : Nat) (color_set : String) :
    ((color_set = "seq7" ∨ color_set = "nonseq7") →
      ∃ cs colors, alookup color_sets color_set = some cs ∧
        get_colors n_colors color_set = .ok colors ∧
        colors.length = n_colors ∧
        ∀ i, i < n_colors → colors.getD i "" = cs.getD (i % 7) "")
    ∧ ((color_set ≠ "seq7" ∧ color_set ≠ "nonseq7") →
      ∃ msg, get_colors n_colors color_set = .error msg) := by
  constructor
  · intro hv
    have key : ∀ cs : List String, cs.length = 7 →
        alookup color_sets color_set = some cs →
        ∃ cs' colors, alookup color_sets color_set = some cs' ∧
          get_colors n_colors color_set = .ok colors ∧
          colors.length = n_colors ∧
          ∀ i, i < n_colors → colors.getD i "" = cs'.getD (i % 7) "" := by
      intro cs hlen hcs
      have hne : cs ≠ [] := by
        intro h; rw [h] at hlen; cases hlen
      have hbase := cycleTake_drop "" cs hne n_colors 0 (by omega)
      rw [List.drop_zero] at hbase
      refine ⟨cs, cycleTake cs n_colors cs, hcs, ?_, ?_, ?_⟩
      · simp [get_colors, hcs]
      · rw [hbase]; simp
      · intro i hi
        rw [hbase, List.getD_eq_getElem?_getD, List.getElem?_map, List.getElem?_range hi]
        simp [hlen]
    rcases hv with h | h <;> subst h
    · exact key _ (by rfl) rfl
    · exact key _ (by rfl) rfl
  · rintro ⟨h1, h2⟩
    have hl : alookup color_sets color_set = none := by
      simp [color_sets, alookup, Ne.symm h1, Ne.symm h2]
    refine ⟨"get_color_scheme: color set " ++ color_set ++ " not defined in color_sets", ?_⟩
    simp [get_colors, hl]

theorem C9_get_colors_witness :
    (∃ cs colors, alookup color_sets "seq7" = some cs ∧
        get_colors 9 "seq7" = .ok colors ∧ colors.length = 9 ∧
        ∀ i, i < 9 → colors.getD i "" = cs.getD (i % 7) "")
    ∧ (∃ msg, get_colors 3 "bogus" = .error msg) :=
  ⟨(C9_get_colors 9 "seq7").1 (Or.inl rfl),
   (C9_get_colors 3 "bogus").2 (by decide)⟩

theorem filter_pickle (s : String) :
    (s ++ ".pickle").data.filter pfAllowed
      = s.data.filter pfAllowed ++ ".pickle".data := by
  rw [data_append, List.filter_append]
  congr 1

/-- C10: every cache filename built by _get_pf_name consists only of
characters that are alphanumeric or one of '.', '_', '-', ' ' (other
characters are dropped), it ends with ".pickle", and two distinct argument
lists can map to the same filename. -/
theorem C10_get_pf_name (fname : String) (args : List String)
    (kwargs : List (String × String)) :
    (∀ c ∈ (_get_pf_name fname args kwargs).data, pfAllowed c = true)
    ∧ (∃ stem, (_get_pf_name fname args kwargs).data = stem ++ ".pickle".data)
    ∧ (_get_pf_name "f" ["a/"] [] = _get_pf_name "f" ["a"] []
        ∧ ["a/"] ≠ ["a"]) := by
  refine ⟨?_, ?_, by decide, by decide⟩
  · intro c hc
    exact List.of_mem_filter hc
  · exact ⟨_, filter_pickle _⟩

theorem C10_get_pf_name_witness :
    (pfAllowed 'c' = true)
    ∧ (∃ stem, (_get_pf_name "compute" ["3"] [("mode", "fast")]).data
        = stem ++ ".pickle".data) :=
  ⟨(C10_get_pf_name "compute" ["3"] [("mode", "fast")]).1 'c' (by decide),
   (C10_get_pf_name "compute" ["3"] [("mode", "fast")]).2.1⟩

/-! ## Claims about the pipeline driver -/

/-- C3: --config with a path naming no existing file fails with the
Configuration-Not-Found error before any external tool is invoked: the
invocation trace is empty and the filesystem is unchanged, so no pipeline
stage executes. -/
theorem C3_config_not_found (path : String) (fs : Fs) (env : Env)
    (rest : List String) (h : alookup fs path = none) :
    _main ("--config" :: path :: rest) fs env
      = ⟨.error (.configNotFound path), fs, []⟩ := by
  simp [_main, _load_config, h]

theorem C3_config_not_found_witness :
    _main ["--config", "missing.json"] [] ⟨fun _ => ⟨0, ""⟩⟩
      = ⟨.error (.configNotFound "missing.json"), [], []⟩ :=
  C3_config_not_found "missing.json" [] ⟨fun _ => ⟨0, ""⟩⟩ [] rfl

/-- C5: for every input, the aligner command line passes the identical input
file name in both the -1 and -2 mate slots, with the --pen-noncansplice
penalty parameter fixed at 1000000. -/
theorem C5_same_mate_inputs (threads idx fq sam : String) :
    (hisatCmd threads idx fq sam)[8]? = some "-1"
    ∧ (hisatCmd threads idx fq sam)[9]? = some fq
    ∧ (hisatCmd threads idx fq sam)[10]? = some "-2"
    ∧ (hisatCmd threads idx fq sam)[11]? = some fq
    ∧ (hisatCmd threads idx fq sam)[4]? = some "--pen-noncansplice"
    ∧ (hisatCmd threads idx fq sam)[5]? = some "1000000" :=
  ⟨rfl, rfl, rfl, rfl, rfl, rfl⟩

/-- C6: --make-config succeeds and writes the template to config.json; a
following --config load of that file parses it back without a
Configuration-Not-Found or key-access error, and every configuration key the
pipeline stages read is present in the template with a usable value. -/
theorem C6_make_config_round_trip (fs : Fs) (env : Env) :
    (_main ["--make-config"] fs env).res = .ok ()
    ∧ _load_config "config.json" (_main ["--make-config"] fs env).fs = .ok sampleConfig
    ∧ getStrList sampleConfig "input_raw_sequence_reads"
        = .ok ["ctl_A_1.fq", "ctl_A_2.fq", "ctl_B_1.fq", "ctl_B_2.fq",
               "trt_C_1.fq", "trt_C_2.fq", "trt_D_1.fq", "trt_D_2.fq"]
    ∧ jGetE sampleConfig "max_cpu_threads" = .ok (.jnum 16)
    ∧ jGetStr sampleConfig "hisat2_index_filename_prefix" = .ok "index/genome"
    ∧ jGetStr sampleConfig "featureCounts_gtf_annotation_file" = .ok "annotation.gtf"
    ∧ jGetE sampleConfig "gzip_fq_after_alignment" = .ok (.jbool true)
    ∧ jGetE sampleConfig "rm_sam_after_converting" = .ok (.jbool true)
    ∧ jGetE sampleConfig "rm_bam_after_sorting" = .ok (.jbool true) :=
  ⟨rfl, rfl, rfl, rfl, rfl, rfl, rfl, rfl, rfl⟩

/-! ### Unfolding lemmas for the Alignment Stage -/

theorem alignStep_eq {env : Env} {cfg : JObj} {fs : Fs} {fq : String}
    {tv : JVal} {idx : String}
    (htv : jGetE cfg "max_cpu_threads" = .ok tv)
    (hidx : jGetStr cfg "hisat2_index_filename_prefix" = .ok idx) :
    alignStep env cfg fs fq =
      (if (env.run (alignCmd tv idx fq)).returncode ≠ 0 then
        ⟨.error (.toolFailure "hisat2" (env.run (alignCmd tv idx fq)).returncode fq),
         fs, [alignCmd tv idx fq]⟩
      else
        match parseAlignRate (env.run (alignCmd tv idx fq)).stdout with
        | none => ⟨.error (.noAlignRate fq), fs, [alignCmd tv idx fq]⟩
        | some align_rate =>
          if align_rate < 70 then
            ⟨.error (.qualityGate align_rate fq), fs, [alignCmd tv idx fq]⟩
          else
            let fs1 := fsWrite fs (stripExt fq ++ ".align.log")
              (.text (String.intercalate " " (alignCmd tv idx fq) ++ "\n"
                ++ (env.run (alignCmd tv idx fq)).stdout))
            match jGetE cfg "gzip_fq_after_alignment" with
            | .error e => ⟨.error e, fs1, [alignCmd tv idx fq]⟩
            | .ok gv =>
              if pyTruthy gv then
                match _gzip_fq fs1 fq with
                | .error e => ⟨.error e, fs1, [alignCmd tv idx fq]⟩
                | .ok fs2 => ⟨.ok (stripExt fq ++ ".sam"), fs2, [alignCmd tv idx fq]⟩
              else ⟨.ok (stripExt fq ++ ".sam"), fs1, [alignCmd tv idx fq]⟩) := by
  simp only [alignStep, htv, hidx, alignCmd]

theorem alignLoop_cons_error {env : Env} {cfg : JObj} {fs fs' : Fs}
    {fq : String} {rest : List String} {e : PErr} {tr : List (List String)}
    (h : alignStep env cfg fs fq = ⟨.error e, fs', tr⟩) :
    alignLoop env cfg fs (fq :: rest) = ⟨.error e, fs', tr⟩ := by
  simp only [alignLoop, h]

theorem alignLoop_cons_ok {env : Env} {cfg : JObj} {fs fs' : Fs}
    {fq sam : String} {rest : List String} {tr : List (List String)}
    (h : alignStep env cfg fs fq = ⟨.ok sam, fs', tr⟩) :
    alignLoop env cfg fs (fq :: rest) =
      ⟨(alignLoop env cfg fs' rest).res.map (fun sams => sam :: sams),
       (alignLoop env cfg fs' rest).fs,
       tr ++ (alignLoop env cfg fs' rest).tr⟩ := by
  simp only [alignLoop, h]

/-- C4: an alignment invocation counts as successful only if the process exit
code is zero and the captured output contains the rate pattern: a nonzero
exit code aborts with an External-Tool-Failure identifying the input; a zero
exit code whose output lacks the pattern aborts as well; and whenever the
step returns a success the exit code was zero and the pattern was present. -/
theorem C4_success_condition (env : Env) (cfg : JObj) (fs : Fs)
    (fq : String) (rest : List String) (tv : JVal) (idx : String)
    (htv : jGetE cfg "max_cpu_threads" = .ok tv)
    (hidx : jGetStr cfg "hisat2_index_filename_prefix" = .ok idx) :
    ((env.run (alignCmd tv idx fq)).returncode ≠ 0 →
      alignLoop env cfg fs (fq :: rest)
        = ⟨.error (.toolFailure "hisat2" (env.run (alignCmd tv idx fq)).returncode fq),
           fs, [alignCmd tv idx fq]⟩)
    ∧ ((env.run (alignCmd tv idx fq)).returncode = 0 →
      parseAlignRate (env.run (alignCmd tv idx fq)).stdout = none →
      alignLoop env cfg fs (fq :: rest)
        = ⟨.error (.noAlignRate fq), fs, [alignCmd tv idx fq]⟩)
    ∧ (∀ sam fs' tr, alignStep env cfg fs fq = ⟨.ok sam, fs', tr⟩ →
      (env.run (alignCmd tv idx fq)).returncode = 0
        ∧ ∃ r, parseAlignRate (env.run (alignCmd tv idx fq)).stdout = some r) := by
  refine ⟨?_, ?_, ?_⟩
  · intro hrc
    apply alignLoop_cons_error
    rw [alignStep_eq htv hidx, if_pos hrc]
  · intro hrc hnone
    apply alignLoop_cons_error
    rw [alignStep_eq htv hidx, if_neg (by simp [hrc]), hnone]
  · intro sam fs' tr h
    rw [alignStep_eq htv hidx] at h
    by_cases hrc : (env.run (alignCmd tv idx fq)).returncode ≠ 0
    · rw [if_pos hrc] at h
      cases h
    · rw [if_neg hrc] at h
      refine ⟨by simpa using hrc, ?_⟩
      cases hp : parseAlignRate (env.run (alignCmd tv idx fq)).stdout with
      | none => rw [hp] at h; cases h
      | some r => exact ⟨r, rfl⟩

theorem C4_success_condition_witness :
    (alignLoop envMixed sampleConfig [] ["bad.fq"]
      = ⟨.error (.toolFailure "hisat2" 1 "bad.fq"), [],
         [alignCmd (.jnum 16) "index/genome" "bad.fq"]⟩)
    ∧ (alignLoop envMixed sampleConfig [] ["ugly.fq"]
      = ⟨.error (.noAlignRate "ugly.fq"), [],
         [alignCmd (.jnum 16) "index/genome" "ugly.fq"]⟩)
    ∧ ((envConst "100.00% overall alignment rate").run
          (alignCmd (.jnum 16) "index/genome" "a.fq") |>.returncode) = 0
    ∧ (∃ r, parseAlignRate ((envConst "100.00% overall alignment rate").run
          (alignCmd (.jnum 16) "index/genome" "a.fq") |>.stdout) = some r) := by
  refine ⟨?_, ?_, ?_⟩
  · have h := (C4_success_condition envMixed sampleConfig [] "bad.fq" [] (.jnum 16)
      "index/genome" rfl rfl).1 (by decide)
    simpa using h
  · have h := (C4_success_condition envMixed sampleConfig [] "ugly.fq" [] (.jnum 16)
      "index/genome" rfl rfl).2.1 (by decide) (by decide)
    simpa using h
  · have h := ((C4_success_condition (envConst "100.00% overall alignment rate")
      sampleConfig [("a.fq", .text "reads")] "a.fq" [] (.jnum 16)
      "index/genome" rfl rfl).2.2 "a.sam"
      (fsRemove (fsWrite (fsWrite [("a.fq", .text "reads")] "a.align.log"
        (.text (String.intercalate " " (alignCmd (.jnum 16) "index/genome" "a.fq")
          ++ "\n" ++ "100.00% overall alignment rate"))) "a.fq.gz"
        (.gzData (.text "reads"))) "a.fq")
      [alignCmd (.jnum 16) "index/genome" "a.fq"] (by rfl))
    exact ⟨h.1, h.2⟩

/-! ### Trace and filesystem invariants of the Alignment Stage -/

theorem alignStep_tr (env : Env) (cfg : JObj) (fs : Fs) (fq : String) :
    (alignStep env cfg fs fq).tr = []
    ∨ ∃ tv idx, (alignStep env cfg fs fq).tr = [alignCmd tv idx fq] := by
  rcases htv : jGetE cfg "max_cpu_threads" with e | tv
  · left; unfold alignStep; rw [htv]
  · rcases hidx : jGetStr cfg "hisat2_index_filename_prefix" with e | idx
    · left; unfold alignStep; rw [htv, hidx]
    · right
      refine ⟨tv, idx, ?_⟩
      rw [alignStep_eq htv hidx]
      repeat' split
      all_goals try rfl
      all_goals (dsimp only; repeat' split)
      all_goals rfl

theorem alignStep_fs (env : Env) (cfg : JObj) (fs : Fs) (fq : String) :
    (alignStep env cfg fs fq).fs = fs
    ∨ (∃ d, (alignStep env cfg fs fq).fs = fsWrite fs (stripExt fq ++ ".align.log") d)
    ∨ (∃ d d2, (alignStep env cfg fs fq).fs
        = fsRemove (fsWrite (fsWrite fs (stripExt fq ++ ".align.log") d)
            (fq ++ ".gz") d2) fq) := by
  rcases htv : jGetE cfg "max_cpu_threads" with e | tv
  · left; unfold alignStep; rw [htv]
  · rcases hidx : jGetStr cfg "hisat2_index_filename_prefix" with e | idx
    · left; unfold alignStep; rw [htv, hidx]
    · rw [alignStep_eq htv hidx]
      by_cases hrc : (env.run (alignCmd tv idx fq)).returncode ≠ 0
      · left; rw [if_pos hrc]
      · rw [if_neg hrc]
        rcases hp : parseAlignRate (env.run (alignCmd tv idx fq)).stdout with _ | r
        · left; rfl
        · dsimp only
          by_cases hlt : r < 70
          · left; rw [if_pos hlt]
          · rw [if_neg hlt]
            rcases hgz : jGetE cfg "gzip_fq_after_alignment" with e | gv
            · right; left; exact ⟨_, rfl⟩
            · dsimp only
              by_cases hgv : pyTruthy gv = true
              · rw [if_pos hgv]
                rcases hrd : alookup (fsWrite fs (stripExt fq ++ ".align.log")
                    (.text (String.intercalate " " (alignCmd tv idx fq) ++ "\n"
                      ++ (env.run (alignCmd tv idx fq)).stdout))) fq with _ | d
                · right; left
                  refine ⟨.text (String.intercalate " " (alignCmd tv idx fq) ++ "\n"
                    ++ (env.run (alignCmd tv idx fq)).stdout), ?_⟩
                  simp only [_gzip_fq, hrd]
                · right; right
                  refine ⟨.text (String.intercalate " " (alignCmd tv idx fq) ++ "\n"
                    ++ (env.run (alignCmd tv idx fq)).stdout), .gzData d, ?_⟩
                  simp only [_gzip_fq, hrd]
              · rw [if_neg hgv]
                right; left; exact ⟨_, rfl⟩

theorem alignStep_tr_head (env : Env) (cfg : JObj) (fs : Fs) (fq : String) :
    ∀ c ∈ (alignStep env cfg fs fq).tr, c.head? = some "./hisat2" := by
  intro c hc
  rcases alignStep_tr env cfg fs fq with h | ⟨tv, idx, h⟩
  · rw [h] at hc; cases hc
  · rw [h] at hc
    rcases List.mem_singleton.mp hc with rfl
    rfl

theorem alignLoop_tr_head (env : Env) (cfg : JObj) :
    ∀ (l : List String) (fs : Fs),
      ∀ c ∈ (alignLoop env cfg fs l).tr, c.head? = some "./hisat2" := by
  intro l
  induction l with
  | nil => intro fs c hc; simp [alignLoop] at hc
  | cons fq rest ih =>
    intro fs c hc
    simp only [alignLoop] at hc
    rcases hs : (alignStep env cfg fs fq).res with e | sam
    · rw [hs] at hc
      exact alignStep_tr_head env cfg fs fq c hc
    · rw [hs] at hc
      simp only [List.mem_append] at hc
      rcases hc with hc | hc
      · exact alignStep_tr_head env cfg fs fq c hc
      · exact ih _ c hc

theorem hisat_tr_head (env : Env) (cfg : JObj) (fs : Fs) :
    ∀ c ∈ (_hisat_2_align_seq_reads env cfg fs).tr, c.head? = some "./hisat2" := by
  intro c hc
  unfold _hisat_2_align_seq_reads at hc
  rcases hl : getStrList cfg "input_raw_sequence_reads" with e | inputs
  · rw [hl] at hc; simp at hc
  · rw [hl] at hc
    exact alignLoop_tr_head env cfg inputs fs c hc

theorem remove_preserves_none {fs : Fs} {nm : String} (n : String)
    (h : alookup fs nm = none) : alookup (fsRemove fs n) nm = none := by
  rw [alookup_remove]
  by_cases hn : n = nm <;> simp [hn, h]

theorem alignStep_preserves_bam (env : Env) (cfg : JObj) (fs : Fs) (fq : String)
    (nm : String) (hm : nm.data.getLast? = some 'm')
    (h : alookup fs nm = none) : alookup (alignStep env cfg fs fq).fs nm = none := by
  have hlog : stripExt fq ++ ".align.log" ≠ nm := by
    intro he
    rw [← he, getLast_append_lit _ _ (by decide)] at hm
    cases hm
  have hgz : fq ++ ".gz" ≠ nm := by
    intro he
    rw [← he, getLast_append_lit _ _ (by decide)] at hm
    cases hm
  rcases alignStep_fs env cfg fs fq with hfs | ⟨d, hfs⟩ | ⟨d, d2, hfs⟩ <;> rw [hfs]
  · exact h
  · rw [alookup_write_ne _ _ _ _ hlog]; exact h
  · apply remove_preserves_none
    rw [alookup_write_ne _ _ _ _ hgz, alookup_write_ne _ _ _ _ hlog]
    exact h

theorem alignLoop_preserves_bam (env : Env) (cfg : JObj) :
    ∀ (l : List String) (fs : Fs) (nm : String),
      nm.data.getLast? = some 'm' → alookup fs nm = none →
      alookup (alignLoop env cfg fs l).fs nm = none := by
  intro l
  induction l with
  | nil => intro fs nm _ h; simpa [alignLoop] using h
  | cons fq rest ih =>
    intro fs nm hm h
    simp only [alignLoop]
    rcases hs : (alignStep env cfg fs fq).res with e | sam
    · simpa using alignStep_preserves_bam env cfg fs fq nm hm h
    · simpa using ih _ nm hm (alignStep_preserves_bam env cfg fs fq nm hm h)

theorem hisat_preserves_bam (env : Env) (cfg : JObj) (fs : Fs) (nm : String)
    (hm : nm.data.getLast? = some 'm') (h : alookup fs nm = none) :
    alookup (_hisat_2_align_seq_reads env cfg fs).fs nm = none := by
  unfold _hisat_2_align_seq_reads
  rcases hl : getStrList cfg "input_raw_sequence_reads" with e | inputs
  · simpa using h
  · simpa using alignLoop_preserves_bam env cfg inputs fs nm hm h

/-- C1: a parsed alignment rate strictly below 70.0 raises the
Quality-Gate-Failure for that input and aborts: the trace stops at that
input's aligner invocation (no later input is aligned, so no later .sam is
produced); at the driver level an Alignment-Stage error is the run's result,
the whole trace consists of aligner invocations only (the Format-Conversion
Stage never runs), and no .bam-named file is created; a rate of exactly 70.0
passes the gate. -/
theorem C1_quality_gate :
    (∀ (env : Env) (cfg : JObj) (fs : Fs) (fq : String) (rest : List String)
        (tv : JVal) (idx : String) (r : ℚ),
      jGetE cfg "max_cpu_threads" = .ok tv →
      jGetStr cfg "hisat2_index_filename_prefix" = .ok idx →
      (env.run (alignCmd tv idx fq)).returncode = 0 →
      parseAlignRate (env.run (alignCmd tv idx fq)).stdout = some r →
      r < 70 →
      alignLoop env cfg fs (fq :: rest)
        = ⟨.error (.qualityGate r fq), fs, [alignCmd tv idx fq]⟩)
    ∧ (∀ (env : Env) (cfg : JObj) (fs : Fs) (fq : String)
        (tv gv : JVal) (idx : String),
      jGetE cfg "max_cpu_threads" = .ok tv →
      jGetStr cfg "hisat2_index_filename_prefix" = .ok idx →
      (env.run (alignCmd tv idx fq)).returncode = 0 →
      parseAlignRate (env.run (alignCmd tv idx fq)).stdout = some 70 →
      jGetE cfg "gzip_fq_after_alignment" = .ok gv →
      pyTruthy gv = false →
      (alignLoop env cfg fs [fq]).res = .ok [stripExt fq ++ ".sam"])
    ∧ (∀ (env : Env) (cfg : JObj) (fs fs2 : Fs) (path : String)
        (rest : List String) (e : PErr) (tr2 : List (List String)),
      alookup fs path = some (.jsonData cfg) →
      _hisat_2_align_seq_reads env cfg fs = ⟨.error e, fs2, tr2⟩ →
      _main ("--config" :: path :: rest) fs env = ⟨.error e, fs2, tr2⟩
        ∧ (∀ c ∈ tr2, c.head? = some "./hisat2")
        ∧ (∀ nm : String, (∃ st, nm.data = st ++ ".bam".data) →
            alookup fs nm = none → alookup fs2 nm = none)) := by
  refine ⟨?_, ?_, ?_⟩
  · intro env cfg fs fq rest tv idx r htv hidx hrc hparse hlt
    apply alignLoop_cons_error
    rw [alignStep_eq htv hidx, if_neg (by simp [hrc]), hparse]
    simp [hlt]
  · intro env cfg fs fq tv gv idx htv hidx hrc hparse hgz hgv
    have hstep : alignStep env cfg fs fq
        = ⟨.ok (stripExt fq ++ ".sam"),
           fsWrite fs (stripExt fq ++ ".align.log")
             (.text (String.intercalate " " (alignCmd tv idx fq) ++ "\n"
               ++ (env.run (alignCmd tv idx fq)).stdout)),
           [alignCmd tv idx fq]⟩ := by
      rw [alignStep_eq htv hidx, if_neg (by simp [hrc]), hparse]
      simp [hgz, hgv]
    rw [alignLoop_cons_ok hstep]
    simp [alignLoop, Except.map]
  · intro env cfg fs fs2 path rest e tr2 hread halign
    refine ⟨?_, ?_, ?_⟩
    · have hmain : _main ("--config" :: path :: rest) fs env = pipelineRun env cfg fs := by
        simp [_main, _load_config, hread]
      rw [hmain]
      unfold pipelineRun
      rw [halign]
    · intro c hc
      have := hisat_tr_head env cfg fs c
      rw [halign] at this
      exact this hc
    · intro nm ⟨st, hbam⟩ hnone
      have hm : nm.data.getLast? = some 'm' := by
        rw [hbam]
        exact List.getLast?_append_of_ne_nil _ (by decide)
      have := hisat_preserves_bam env cfg fs nm hm hnone
      rw [halign] at this
      exact this

theorem C1_quality_gate_witness :
    (alignLoop (envConst "69.99% overall alignment rate") sampleConfig []
        ["a.fq", "b.fq"]
      = ⟨.error (.qualityGate (mkRat 6999 100) "a.fq"), [],
         [alignCmd (.jnum 16) "index/genome" "a.fq"]⟩)
    ∧ ((alignLoop (envConst "70.00% overall alignment rate") sampleConfigNoGz []
        ["a.fq"]).res = .ok ["a.sam"])
    ∧ (_main ["--config", "c.json"] [("c.json", .jsonData sampleConfig)]
        (envConst "69.99% overall alignment rate")
      = ⟨.error (.qualityGate (mkRat 6999 100) "ctl_A_1.fq"),
         [("c.json", .jsonData sampleConfig)],
         [alignCmd (.jnum 16) "index/genome" "ctl_A_1.fq"]⟩) := by
  refine ⟨?_, ?_, ?_⟩
  · exact C1_quality_gate.1 (envConst "69.99% overall alignment rate") sampleConfig []
      "a.fq" ["b.fq"] (.jnum 16) "index/genome" (mkRat 6999 100) rfl rfl rfl rfl
      (by decide)
  · exact C1_quality_gate.2.1 (envConst "70.00% overall alignment rate")
      sampleConfigNoGz [] "a.fq" (.jnum 16) (.jbool false) "index/genome"
      rfl rfl rfl rfl rfl rfl
  · exact (C1_quality_gate.2.2 (envConst "69.99% overall alignment rate") sampleConfig
      [("c.json", .jsonData sampleConfig)] [("c.json", .jsonData sampleConfig)]
      "c.json" [] (.qualityGate (mkRat 6999 100) "ctl_A_1.fq")
      [alignCmd (.jnum 16) "index/genome" "ctl_A_1.fq"] rfl (by rfl)).1

/-- Workhorse: whenever one alignment step returns a success, its output
name, trace and final filesystem are fully determined: the log file has been
written with the command line and captured output, and, exactly when the
gzip flag is truthy, the input read file (whose data was present) has been
compressed to fq + '.gz' and removed. -/
theorem alignStep_ok_fs {env : Env} {cfg : JObj} {fs : Fs} {fq : String}
    {tv : JVal} {idx : String} {sam : String}
    (htv : jGetE cfg "max_cpu_threads" = .ok tv)
    (hidx : jGetStr cfg "hisat2_index_filename_prefix" = .ok idx)
    (h : (alignStep env cfg fs fq).res = .ok sam) :
    sam = stripExt fq ++ ".sam"
    ∧ (alignStep env cfg fs fq).tr = [alignCmd tv idx fq]
    ∧ (∃ gv, jGetE cfg "gzip_fq_after_alignment" = .ok gv ∧
        ((pyTruthy gv = false ∧ (alignStep env cfg fs fq).fs
            = fsWrite fs (stripExt fq ++ ".align.log")
                (.text (String.intercalate " " (alignCmd tv idx fq) ++ "\n"
                  ++ (env.run (alignCmd tv idx fq)).stdout)))
         ∨ (pyTruthy gv = true ∧ ∃ d0, alookup fs fq = some d0 ∧
            (alignStep env cfg fs fq).fs
              = fsRemove (fsWrite (fsWrite fs (stripExt fq ++ ".align.log")
                  (.text (String.intercalate " " (alignCmd tv idx fq) ++ "\n"
                    ++ (env.run (alignCmd tv idx fq)).stdout)))
                  (fq ++ ".gz") (.gzData d0)) fq))) := by
  rw [alignStep_eq htv hidx] at h ⊢
  by_cases hrc : (env.run (alignCmd tv idx fq)).returncode ≠ 0
  · rw [if_pos hrc] at h; simp at h
  · rw [if_neg hrc] at h ⊢
    rcases hp : parseAlignRate (env.run (alignCmd tv idx fq)).stdout with _ | r
    · rw [hp] at h; simp at h
    · rw [hp] at h
      dsimp only at h ⊢
      by_cases hlt : r < 70
      · rw [if_pos hlt] at h; simp at h
      · rw [if_neg hlt] at h ⊢
        rcases hgz : jGetE cfg "gzip_fq_after_alignment" with e | gv
        · rw [hgz] at h; simp at h
        · rw [hgz] at h
          dsimp only at h ⊢
          by_cases hgv : pyTruthy gv = true
          · rw [if_pos hgv] at h ⊢
            rcases hrd : alookup (fsWrite fs (stripExt fq ++ ".align.log")
                (.text (String.intercalate " " (alignCmd tv idx fq) ++ "\n"
                  ++ (env.run (alignCmd tv idx fq)).stdout))) fq with _ | d0
            · simp only [_gzip_fq, hrd] at h; simp at h
            · simp only [_gzip_fq, hrd] at h ⊢
              simp only [Except.ok.injEq] at h
              refine ⟨h.symm, trivial, gv, rfl, Or.inr ⟨hgv, d0, ?_, rfl⟩⟩
              rw [alookup_write_ne _ _ _ _ (log_ne_fq fq)] at hrd
              exact hrd
          · rw [if_neg hgv] at h ⊢
            simp only [Except.ok.injEq] at h
            refine ⟨h.symm, rfl, gv, rfl,
              Or.inl ⟨by simpa using hgv, rfl⟩⟩

/-- C7: for every successful logged tool invocation, the log file content is
exactly the command line joined by single spaces, a newline, then the tool's
captured output: this holds for each per-input alignment log and for the
aggregate feature-counting log. -/
theorem C7_log_contents :
    (∀ (env : Env) (cfg : JObj) (fs : Fs) (fq : String) (tv : JVal)
        (idx : String) (sam : String),
      jGetE cfg "max_cpu_threads" = .ok tv →
      jGetStr cfg "hisat2_index_filename_prefix" = .ok idx →
      (alignStep env cfg fs fq).res = .ok sam →
      alookup (alignStep env cfg fs fq).fs (stripExt fq ++ ".align.log")
        = some (.text (String.intercalate " " (alignCmd tv idx fq) ++ "\n"
            ++ (env.run (alignCmd tv idx fq)).stdout)))
    ∧ (∀ (env : Env) (cfg : JObj) (fs : Fs) (sort_bams : List String)
        (ann : String) (tv : JVal),
      jGetStr cfg "featureCounts_gtf_annotation_file" = .ok ann →
      jGetE cfg "max_cpu_threads" = .ok tv →
      (_featurecounts_all_samples env cfg fs sort_bams).res = .ok () →
      alookup (_featurecounts_all_samples env cfg fs sort_bams).fs "features.log"
        = some (.text (String.intercalate " " (fcCmd ann (pyStr tv) sort_bams) ++ "\n"
            ++ (env.run (fcCmd ann (pyStr tv) sort_bams)).stdout))) := by
  constructor
  · intro env cfg fs fq tv idx sam htv hidx h
    obtain ⟨-, -, gv, hgz, hcase⟩ := alignStep_ok_fs htv hidx h
    rcases hcase with ⟨-, hfs⟩ | ⟨-, d0, -, hfs⟩
    · rw [hfs, alookup_write_self]
    · rw [hfs, alookup_remove_ne _ _ _ (fun he => log_ne_fq fq he.symm),
        alookup_write_ne _ _ _ _ (gz_ne_log fq (stripExt fq)),
        alookup_write_self]
  · intro env cfg fs sort_bams ann tv hann htv h
    unfold _featurecounts_all_samples at h ⊢
    rw [hann, htv] at h ⊢
    dsimp only at h ⊢
    by_cases hrc : (env.run (fcCmd ann (pyStr tv) sort_bams)).returncode ≠ 0
    · rw [if_pos hrc] at h; simp at h
    · rw [if_neg hrc]
      rw [alookup_write_self, String.append_assoc]

theorem C7_log_contents_witness :
    (alookup (alignStep (envConst "100.00% overall alignment rate")
        sampleConfigNoGz [] "a.fq").fs "a.align.log"
      = some (.text (String.intercalate " "
          (alignCmd (.jnum 16) "index/genome" "a.fq") ++ "\n"
          ++ "100.00% overall alignment rate")))
    ∧ (alookup (_featurecounts_all_samples (envConst "feature counting done")
        sampleConfig [] ["a.sort.bam", "b.sort.bam"]).fs "features.log"
      = some (.text (String.intercalate " "
          (fcCmd "annotation.gtf" "16" ["a.sort.bam", "b.sort.bam"]) ++ "\n"
          ++ "feature counting done"))) :=
  ⟨C7_log_contents.1 (envConst "100.00% overall alignment rate") sampleConfigNoGz []
      "a.fq" (.jnum 16) "index/genome" "a.sam" rfl rfl (by rfl),
   C7_log_contents.2 (envConst "feature counting done") sampleConfig []
      ["a.sort.bam", "b.sort.bam"] "annotation.gtf" (.jnum 16) rfl rfl (by rfl)⟩

/-! ### Shadowing lemmas: the Alignment Stage ignores the rm flags -/

theorem jGetE_shadow (cfg : JObj) (k k1 k2 : String) (v1 v2 : JVal)
    (h1 : k1 ≠ k) (h2 : k2 ≠ k) :
    jGetE ((k1, v1) :: (k2, v2) :: cfg) k = jGetE cfg k := by
  simp [jGetE, alookup, h1, h2]

theorem jGetStr_shadow (cfg : JObj) (k k1 k2 : String) (v1 v2 : JVal)
    (h1 : k1 ≠ k) (h2 : k2 ≠ k) :
    jGetStr ((k1, v1) :: (k2, v2) :: cfg) k = jGetStr cfg k := by
  unfold jGetStr
  rw [jGetE_shadow cfg k k1 k2 v1 v2 h1 h2]

theorem getStrList_shadow (cfg : JObj) (k k1 k2 : String) (v1 v2 : JVal)
    (h1 : k1 ≠ k) (h2 : k2 ≠ k) :
    getStrList ((k1, v1) :: (k2, v2) :: cfg) k = getStrList cfg k := by
  unfold getStrList
  rw [jGetE_shadow cfg k k1 k2 v1 v2 h1 h2]

theorem alignStep_rm_shadow (env : Env) (cfg : JObj) (fs : Fs) (fq : String)
    (v1 v2 : JVal) :
    alignStep env (("rm_sam_after_converting", v1)
      :: ("rm_bam_after_sorting", v2) :: cfg) fs fq = alignStep env cfg fs fq := by
  have h1 := jGetE_shadow cfg "max_cpu_threads"
    "rm_sam_after_converting" "rm_bam_after_sorting" v1 v2 (by decide) (by decide)
  have h2 := jGetStr_shadow cfg "hisat2_index_filename_prefix"
    "rm_sam_after_converting" "rm_bam_after_sorting" v1 v2 (by decide) (by decide)
  have h3 := jGetE_shadow cfg "gzip_fq_after_alignment"
    "rm_sam_after_converting" "rm_bam_after_sorting" v1 v2 (by decide) (by decide)
  simp only [alignStep, h1, h2, h3]

theorem alignLoop_rm_shadow (env : Env) (cfg : JObj) (v1 v2 : JVal) :
    ∀ (l : List String) (fs : Fs),
      alignLoop env (("rm_sam_after_converting", v1)
        :: ("rm_bam_after_sorting", v2) :: cfg) fs l = alignLoop env cfg fs l := by
  intro l
  induction l with
  | nil => intro fs; rfl
  | cons fq rest ih =>
    intro fs
    simp only [alignLoop, alignStep_rm_shadow, ih]

/-- C8: write-up of the cleanup behavior of a successfully processed input.
With gzip_fq_after_alignment falsy the original read file keeps its (text)
content untouched; the Alignment Stage does not read the other two cleanup
flags at all, so overriding them changes nothing; with the flag truthy the
stage creates fq + '.gz' holding the gzip of the original bytes and removes
the original. -/
theorem C8_gzip_cleanup :
    (∀ (env : Env) (cfg : JObj) (fs : Fs) (fq : String) (tv gv : JVal)
        (idx sam : String) (s : String),
      jGetE cfg "max_cpu_threads" = .ok tv →
      jGetStr cfg "hisat2_index_filename_prefix" = .ok idx →
      jGetE cfg "gzip_fq_after_alignment" = .ok gv →
      pyTruthy gv = false →
      (alignStep env cfg fs fq).res = .ok sam →
      alookup fs fq = some (.text s) →
      alookup (alignStep env cfg fs fq).fs fq = some (.text s))
    ∧ (∀ (env : Env) (cfg : JObj) (fs : Fs) (v1 v2 : JVal),
      _hisat_2_align_seq_reads env (("rm_sam_after_converting", v1)
          :: ("rm_bam_after_sorting", v2) :: cfg) fs
        = _hisat_2_align_seq_reads env cfg fs)
    ∧ (∀ (env : Env) (cfg : JObj) (fs : Fs) (fq : String) (tv gv : JVal)
        (idx sam : String) (d : FData),
      jGetE cfg "max_cpu_threads" = .ok tv →
      jGetStr cfg "hisat2_index_filename_prefix" = .ok idx →
      jGetE cfg "gzip_fq_after_alignment" = .ok gv →
      pyTruthy gv = true →
      (alignStep env cfg fs fq).res = .ok sam →
      alookup fs fq = some d →
      alookup (alignStep env cfg fs fq).fs (fq ++ ".gz") = some (.gzData d)
        ∧ alookup (alignStep env cfg fs fq).fs fq = none) := by
  refine ⟨?_, ?_, ?_⟩
  · intro env cfg fs fq tv gv idx sam s htv hidx hgz hgv h hs
    obtain ⟨-, -, gv', hgz', hcase⟩ := alignStep_ok_fs htv hidx h
    rw [hgz] at hgz'
    cases hgz'
    rcases hcase with ⟨-, hfs⟩ | ⟨hgv', -⟩
    · rw [hfs, alookup_write_ne _ _ _ _ (log_ne_fq fq)]
      exact hs
    · rw [hgv] at hgv'; cases hgv'
  · intro env cfg fs v1 v2
    unfold _hisat_2_align_seq_reads
    rw [getStrList_shadow cfg "input_raw_sequence_reads"
      "rm_sam_after_converting" "rm_bam_after_sorting" v1 v2 (by decide) (by decide)]
    rcases getStrList cfg "input_raw_sequence_reads" with e | inputs
    · rfl
    · exact alignLoop_rm_shadow env cfg v1 v2 inputs fs
  · intro env cfg fs fq tv gv idx sam d htv hidx hgz hgv h hd
    obtain ⟨-, -, gv', hgz', hcase⟩ := alignStep_ok_fs htv hidx h
    rw [hgz] at hgz'
    cases hgz'
    rcases hcase with ⟨hgv', -⟩ | ⟨-, d0, hd0, hfs⟩
    · rw [hgv] at hgv'; cases hgv'
    · rw [hd] at hd0
      cases hd0
      constructor
      · rw [hfs, alookup_remove_ne _ _ _ (fun he => gz_ne_self fq he.symm),
          alookup_write_self]
      · rw [hfs, alookup_remove_self]

theorem C8_gzip_cleanup_witness :
    (alookup (alignStep (envConst "100.00% overall alignment rate")
        sampleConfigNoGz [("a.fq", .text "reads")] "a.fq").fs "a.fq"
      = some (.text "reads"))
    ∧ (_hisat_2_align_seq_reads (envConst "100.00% overall alignment rate")
        (("rm_sam_after_converting", .jbool false)
          :: ("rm_bam_after_sorting", .jbool false) :: sampleConfigNoGz)
        [("a.fq", .text "reads")]
      = _hisat_2_align_seq_reads (envConst "100.00% overall alignment rate")
        sampleConfigNoGz [("a.fq", .text "reads")])
    ∧ (alookup (alignStep (envConst "100.00% overall alignment rate")
        sampleConfig [("a.fq", .text "reads")] "a.fq").fs "a.fq.gz"
      = some (.gzData (.text "reads"))
      ∧ alookup (alignStep (envConst "100.00% overall alignment rate")
        sampleConfig [("a.fq", .text "reads")] "a.fq").fs "a.fq" = none) :=
  ⟨C8_gzip_cleanup.1 (envConst "100.00% overall alignment rate") sampleConfigNoGz
      [("a.fq", .text "reads")] "a.fq" (.jnum 16) (.jbool false) "index/genome"
      "a.sam" "reads" rfl rfl rfl rfl (by rfl) rfl,
   C8_gzip_cleanup.2.1 (envConst "100.00% overall alignment rate") sampleConfigNoGz
      [("a.fq", .text "reads")] (.jbool false) (.jbool false),
   C8_gzip_cleanup.2.2 (envConst "100.00% overall alignment rate") sampleConfig
      [("a.fq", .text "reads")] "a.fq" (.jnum 16) (.jbool true) "index/genome"
      "a.sam" (.text "reads") rfl rfl rfl rfl (by rfl) rfl⟩

theorem write_preserves_isSome (fs : Fs) (n m : String) (d : FData)
    (h : (alookup fs m).isSome = true) :
    (alookup (fsWrite fs n d) m).isSome = true := by
  by_cases hnm : n = m
  · subst hnm; rw [alookup_write_self]; rfl
  · rw [alookup_write_ne _ _ _ _ hnm]; exact h

/-- C2 counterexample: with the input list ["a.fq", "a.fq"] and
gzip_fq_after_alignment enabled, both aligner invocations happen and succeed
(exit code zero, the rate pattern parses as 100), yet the Alignment Stage
does not return two output paths: it raises FileNotFoundError because the
first iteration's gzip removed a.fq before the second iteration gzips it. -/
theorem C2_counterexample :
    ((envConst "100.00% overall alignment rate").run
        (alignCmd (.jnum 16) "index/genome" "a.fq")).returncode = 0
    ∧ parseAlignRate ((envConst "100.00% overall alignment rate").run
        (alignCmd (.jnum 16) "index/genome" "a.fq")).stdout = some 100
    ∧ (_hisat_2_align_seq_reads (envConst "100.00% overall alignment rate")
        sampleConfigDup [("a.fq", .text "reads")]).tr
      = [alignCmd (.jnum 16) "index/genome" "a.fq",
         alignCmd (.jnum 16) "index/genome" "a.fq"]
    ∧ (_hisat_2_align_seq_reads (envConst "100.00% overall alignment rate")
        sampleConfigDup [("a.fq", .text "reads")]).res
      = .error (.fileNotFound "a.fq") :=
  ⟨rfl, by rfl, by rfl, by rfl⟩

/-- C2 (amended): if all N aligner invocations succeed (exit code zero, rate
pattern present, rate at least 70.0) and, when gzip_fq_after_alignment is
enabled, the input names are pairwise distinct and every input read file is
initially present (so each gzip finds its file), then the Alignment Stage
returns exactly N output paths in input order, the i-th being the i-th input
with its extension stripped and ".sam" appended. -/
theorem C2_alignment_outputs (env : Env) (cfg : JObj) (fs : Fs)
    (inputs : List String) (tv gv : JVal) (idx : String)
    (hin : getStrList cfg "input_raw_sequence_reads" = .ok inputs)
    (htv : jGetE cfg "max_cpu_threads" = .ok tv)
    (hidx : jGetStr cfg "hisat2_index_filename_prefix" = .ok idx)
    (hgz : jGetE cfg "gzip_fq_after_alignment" = .ok gv)
    (hok : ∀ fq ∈ inputs,
      (env.run (alignCmd tv idx fq)).returncode = 0
      ∧ ∃ r, parseAlignRate (env.run (alignCmd tv idx fq)).stdout = some r ∧ ¬ r < 70)
    (hgzok : pyTruthy gv = true →
      inputs.Nodup ∧ ∀ fq ∈ inputs, (alookup fs fq).isSome = true) :
    (_hisat_2_align_seq_reads env cfg fs).res
      = .ok (inputs.map (fun fq => stripExt fq ++ ".sam"))
    ∧ (inputs.map (fun fq => stripExt fq ++ ".sam")).length = inputs.length := by
  refine ⟨?_, by simp⟩
  unfold _hisat_2_align_seq_reads
  rw [hin]
  dsimp only
  clear hin
  induction inputs generalizing fs with
  | nil => rfl
  | cons fq rest ih =>
    obtain ⟨hrc, r, hr, hlt⟩ := hok fq (List.mem_cons_self fq rest)
    have hstep : ∃ fs', alignStep env cfg fs fq
        = ⟨.ok (stripExt fq ++ ".sam"), fs', [alignCmd tv idx fq]⟩
        ∧ (pyTruthy gv = true →
            ∀ q, q ≠ fq → (alookup fs q).isSome = true → (alookup fs' q).isSome = true)
        ∧ (pyTruthy gv = false → fs' = fsWrite fs (stripExt fq ++ ".align.log")
            (.text (String.intercalate " " (alignCmd tv idx fq) ++ "\n"
              ++ (env.run (alignCmd tv idx fq)).stdout))) := by
      rw [alignStep_eq htv hidx, if_neg (by simp [hrc]), hr, hgz]
      dsimp only
      rw [if_neg hlt]
      by_cases hgv : pyTruthy gv = true
      · rw [if_pos hgv]
        have hpres : (alookup fs fq).isSome = true :=
          (hgzok hgv).2 fq (List.mem_cons_self fq rest)
        obtain ⟨d, hd⟩ := Option.isSome_iff_exists.mp hpres
        have hd1 : alookup (fsWrite fs (stripExt fq ++ ".align.log")
            (.text (String.intercalate " " (alignCmd tv idx fq) ++ "\n"
              ++ (env.run (alignCmd tv idx fq)).stdout))) fq = some d := by
          rw [alookup_write_ne _ _ _ _ (log_ne_fq fq)]; exact hd
        refine ⟨fsRemove (fsWrite (fsWrite fs (stripExt fq ++ ".align.log")
            (.text (String.intercalate " " (alignCmd tv idx fq) ++ "\n"
              ++ (env.run (alignCmd tv idx fq)).stdout)))
            (fq ++ ".gz") (.gzData d)) fq, ?_, ?_, ?_⟩
        · simp only [_gzip_fq, hd1]
        · intro _ q hq hqs
          rw [alookup_remove_ne _ _ _ (fun he => hq he.symm)]
          exact write_preserves_isSome _ _ _ _ (write_preserves_isSome _ _ _ _ hqs)
        · intro hgv'; rw [hgv'] at hgv; cases hgv
      · rw [if_neg hgv]
        exact ⟨_, rfl, fun h => absurd h hgv, fun _ => rfl⟩
    obtain ⟨fs', hstep, hpres', hfalse⟩ := hstep
    rw [alignLoop_cons_ok hstep]
    have hrest := ih fs' (fun q hq => hok q (List.mem_cons_of_mem fq hq)) ?_
    · simp only [hrest, Except.map, List.map_cons]
    · intro hgv
      obtain ⟨hnd, hall⟩ := hgzok hgv
      refine ⟨(List.nodup_cons.mp hnd).2, ?_⟩
      intro q hq
      have hqfq : q ≠ fq := by
        intro he
        exact (List.nodup_cons.mp hnd).1 (he ▸ hq)
      exact hpres' hgv q hqfq (hall q (List.mem_cons_of_mem fq hq))

theorem C2_alignment_outputs_witness :
    (_hisat_2_align_seq_reads (envConst "100.00% overall alignment rate")
        sampleConfig
        [("ctl_A_1.fq", .text "r1"), ("ctl_A_2.fq", .text "r2"),
         ("ctl_B_1.fq", .text "r3"), ("ctl_B_2.fq", .text "r4"),
         ("trt_C_1.fq", .text "r5"), ("trt_C_2.fq", .text "r6"),
         ("trt_D_1.fq", .text "r7"), ("trt_D_2.fq", .text "r8")]).res
      = .ok ["ctl_A_1.sam", "ctl_A_2.sam", "ctl_B_1.sam", "ctl_B_2.sam",
             "trt_C_1.sam", "trt_C_2.sam", "trt_D_1.sam", "trt_D_2.sam"]
    ∧ (["ctl_A_1.sam", "ctl_A_2.sam", "ctl_B_1.sam", "ctl_B_2.sam",
        "trt_C_1.sam", "trt_C_2.sam", "trt_D_1.sam", "trt_D_2.sam"] : List String).length
      = (["ctl_A_1.fq", "ctl_A_2.fq", "ctl_B_1.fq", "ctl_B_2.fq",
          "trt_C_1.fq", "trt_C_2.fq", "trt_D_1.fq", "trt_D_2.fq"] : List String).length :=
  C2_alignment_outputs (envConst "100.00% overall alignment rate") sampleConfig
    [("ctl_A_1.fq", .text "r1"), ("ctl_A_2.fq", .text "r2"),
     ("ctl_B_1.fq", .text "r3"), ("ctl_B_2.fq", .text "r4"),
     ("trt_C_1.fq", .text "r5"), ("trt_C_2.fq", .text "r6"),
     ("trt_D_1.fq", .text "r7"), ("trt_D_2.fq", .text "r8")]
    ["ctl_A_1.fq", "ctl_A_2.fq", "ctl_B_1.fq", "ctl_B_2.fq",
     "trt_C_1.fq", "trt_C_2.fq", "trt_D_1.fq", "trt_D_2.fq"]
    (.jnum 16) (.jbool true) "index/genome" rfl rfl rfl rfl
    (fun fq _ => ⟨rfl, 100, rfl, by decide⟩)
    (fun _ => ⟨by decide, by decide⟩)

end DHRutil
